import Mathlib

/-!
Shallow embedding of the signal, risk and request-signing core of the
`stock-bot` repository (files `trading_bot.py`, `market_analyzer.py`,
`risk_manager.py`), together with theorems settling the specification
claims about it.

Numeric values flowing through the pandas pipelines are modelled by
`PFloat`, an IEEE-754-style value that is either a rational number,
`nan`, or a signed infinity; pandas/numpy elementwise arithmetic never
raises, it produces `nan`/`inf`, and every comparison involving `nan`
is false, which `PFloat` reproduces.  Quantities that the source code
only ever handles as finite numbers are modelled directly as `ℚ`.
-/

/-- IEEE-754-like scalar used by the pandas computations: a rational,
nan, or a signed infinity. -/
inductive PFloat where
  | nan : PFloat
  | inf : PFloat
  | ninf : PFloat
  | val : ℚ → PFloat
deriving DecidableEq, Repr

namespace PFloat

/-- Negation (IEEE semantics). -/
def neg : PFloat → PFloat
  | nan => nan
  | inf => ninf
  | ninf => inf
  | val q => val (-q)

/-- Addition (IEEE semantics: nan is absorbing, inf + ninf = nan). -/
def add : PFloat → PFloat → PFloat
  | nan, _ => nan
  | _, nan => nan
  | inf, ninf => nan
  | ninf, inf => nan
  | inf, _ => inf
  | ninf, _ => ninf
  | _, inf => inf
  | _, ninf => ninf
  | val a, val b => val (a + b)

/-- Subtraction (IEEE semantics). -/
def sub (a b : PFloat) : PFloat := add a (neg b)

/-- Multiplication (IEEE semantics: nan absorbing, inf * 0 = nan). -/
def mul : PFloat → PFloat → PFloat
  | nan, _ => nan
  | _, nan => nan
  | inf, inf => inf
  | inf, ninf => ninf
  | ninf, inf => ninf
  | ninf, ninf => inf
  | inf, val b => if b > 0 then inf else if b < 0 then ninf else nan
  | ninf, val b => if b > 0 then ninf else if b < 0 then inf else nan
  | val a, inf => if a > 0 then inf else if a < 0 then ninf else nan
  | val a, ninf => if a > 0 then ninf else if a < 0 then inf else nan
  | val a, val b => val (a * b)

/-- Division (IEEE semantics: x/0 is a signed infinity for x ≠ 0,
0/0 = nan, finite/inf = 0, inf/inf = nan). -/
def div : PFloat → PFloat → PFloat
  | nan, _ => nan
  | _, nan => nan
  | inf, inf => nan
  | inf, ninf => nan
  | ninf, inf => nan
  | ninf, ninf => nan
  | inf, val b => if b < 0 then ninf else inf
  | ninf, val b => if b < 0 then inf else ninf
  | val _, inf => val 0
  | val _, ninf => val 0
  | val a, val b =>
    if b = 0 then
      if a > 0 then inf else if a < 0 then ninf else nan
    else val (a / b)

/-- Strict less-than as a boolean; any comparison with nan is false
(numpy comparison semantics). -/
def ltb : PFloat → PFloat → Bool
  | nan, _ => false
  | _, nan => false
  | inf, _ => false
  | _, inf => true
  | ninf, ninf => false
  | ninf, _ => true
  | _, ninf => false
  | val a, val b => decide (a < b)

/-- `a > b` as a boolean (nan compares false). -/
def gtb (a b : PFloat) : Bool := ltb b a

end PFloat

/-- Decidable equality of `Except` results, for evaluating the
embedded fallible operations on concrete inputs. -/
instance exceptDecEq {ε α : Type} [DecidableEq ε] [DecidableEq α] :
    DecidableEq (Except ε α) := fun a b =>
  match a, b with
  | Except.error e1, Except.error e2 =>
    if h : e1 = e2 then Decidable.isTrue (by rw [h])
    else Decidable.isFalse (by intro hc; cases hc; exact h rfl)
  | Except.ok a1, Except.ok a2 =>
    if h : a1 = a2 then Decidable.isTrue (by rw [h])
    else Decidable.isFalse (by intro hc; cases hc; exact h rfl)
  | Except.error _, Except.ok _ => Decidable.isFalse (fun hc => Except.noConfusion hc)
  | Except.ok _, Except.error _ => Decidable.isFalse (fun hc => Except.noConfusion hc)

namespace TradingBot

/-!
`PionexTradingBot.calculate_rsi` (trading_bot.py):

    delta = prices.diff()
    gain = (delta.where(delta > 0, 0)).rolling(window=period).mean()
    loss = (-delta.where(delta < 0, 0)).rolling(window=period).mean()
    rs = gain / loss
    rsi = 100 - (100 / (1 + rs))
    return rsi.iloc[-1]

with the exception handler returning 50 (reached only when `iloc[-1]`
fails on an empty series).  The pandas series operations are
elementwise, so they are embedded index-wise.  Note that
`delta.where(delta > 0, 0)` maps the leading `NaN` delta to `0`
(a nan condition counts as false), so the gain/loss series are
rational-valued; `rolling(window=period).mean()` is `nan` until the
window is full.
-/

/-- The i-th element of `prices.diff()`: nan at index 0. -/
def deltaAt (prices : List ℚ) (i : Nat) : PFloat :=
  if i = 0 ∨ prices.length ≤ i then PFloat.nan
  else PFloat.val (prices.getD i 0 - prices.getD (i - 1) 0)

/-- The i-th gain `delta.where(delta > 0, 0)`: the nan head becomes 0. -/
def gainAt (prices : List ℚ) (i : Nat) : ℚ :=
  match deltaAt prices i with
  | PFloat.val q => if q > 0 then q else 0
  | _ => 0

/-- The i-th loss `-delta.where(delta < 0, 0)` (non-negative). -/
def lossAt (prices : List ℚ) (i : Nat) : ℚ :=
  match deltaAt prices i with
  | PFloat.val q => if q < 0 then -q else 0
  | _ => 0

/-- `rolling(window=period).mean()` of an index-wise rational series:
nan before the window is full, else the window average. -/
def rollingMean (f : Nat → ℚ) (period : Nat) (i : Nat) : PFloat :=
  if i + 1 < period then PFloat.nan
  else PFloat.val ((((List.range period).map (fun j => f (i - j))).sum) / period)

/-- The i-th element of the `rsi` series of `calculate_rsi`. -/
def rsiAt (prices : List ℚ) (period : Nat) (i : Nat) : PFloat :=
  let gain := rollingMean (gainAt prices) period i
  let loss := rollingMean (lossAt prices) period i
  let rs := PFloat.div gain loss
  PFloat.sub (PFloat.val 100) (PFloat.div (PFloat.val 100) (PFloat.add (PFloat.val 1) rs))

/-- `PionexTradingBot.calculate_rsi` with default `period=14`: the last
element of the rsi series; on an empty series `iloc[-1]` raises and the
handler returns 50. -/
def calculate_rsi (prices : List ℚ) (period : Nat := 14) : PFloat :=
  if prices.isEmpty then PFloat.val 50
  else rsiAt prices period (prices.length - 1)

/-!
`PionexTradingBot.calculate_kdj` (trading_bot.py):

    low_list = df.low.rolling(window=n).min()
    high_list = df.high.rolling(window=n).max()
    rsv = (df.close - low_list) / (high_list - low_list) * 100
    k = rsv.ewm(com=m1-1, adjust=True, min_periods=0).mean()
    d = k.ewm(com=m2-1, adjust=True, min_periods=0).mean()
    j = 3 * k - 2 * d
    return k.iloc[-1], d.iloc[-1], j.iloc[-1]

with the exception handler returning (50, 50, 50), reached only when
`iloc[-1]` fails on an empty frame.  `ewm(..., adjust=True)` with
`ignore_na=False` keeps a weighted numerator/denominator pair that
decays by `1-alpha` at every row and accumulates only non-nan inputs;
a row whose accumulated denominator is zero outputs nan.
-/

/-- One OHLC candle row of the dataframe (only the columns the KDJ
computation touches). -/
structure Candle where
  low : ℚ
  high : ℚ
  close : ℚ
deriving DecidableEq, Repr

/-- The rolling window of column `f` ending at row `i` (length `n`). -/
def windowVals (f : Candle → ℚ) (df : List Candle) (n i : Nat) : List ℚ :=
  ((df.map f).drop (i + 1 - n)).take n

/-- The i-th element of the `rsv` series: nan while the rolling window
is not yet full, otherwise `(close − min low)/(max high − min low)·100`
with IEEE division (a degenerate flat window gives `0/0 = nan`). -/
def rsvAt (df : List Candle) (n i : Nat) : PFloat :=
  if i + 1 < n then PFloat.nan
  else
    let lo := (windowVals Candle.low df n i).min?.getD 0
    let hi := (windowVals Candle.high df n i).max?.getD 0
    let c := (df.getD i ⟨0, 0, 0⟩).close
    PFloat.mul
      (PFloat.div (PFloat.sub (PFloat.val c) (PFloat.val lo))
        (PFloat.sub (PFloat.val hi) (PFloat.val lo)))
      (PFloat.val 100)

/-- Exponentially-weighted mean (`ewm(adjust=True, ignore_na=False,
min_periods=0).mean()`): `num`/`den` decay by `a = 1-alpha` each row,
nan inputs are skipped, and a zero denominator outputs nan. -/
def ewmMeanAux (a : ℚ) (num : PFloat) (den : ℚ) : List PFloat → List PFloat
  | [] => []
  | x :: xs =>
    let num' := match x with
      | PFloat.nan => PFloat.mul num (PFloat.val a)
      | _ => PFloat.add (PFloat.mul num (PFloat.val a)) x
    let den' := match x with
      | PFloat.nan => den * a
      | _ => den * a + 1
    (if den' = 0 then PFloat.nan else PFloat.div num' (PFloat.val den')) ::
      ewmMeanAux a num' den' xs

/-- `series.ewm(com, adjust=True, min_periods=0).mean()` where
`a = 1 - alpha = com/(com+1)`. -/
def ewmMean (a : ℚ) (xs : List PFloat) : List PFloat :=
  ewmMeanAux a (PFloat.val 0) 0 xs

/-- `PionexTradingBot.calculate_kdj` with defaults `n=9, m1=3, m2=3`;
`com = m1-1` gives decay factor `(m1-1)/m1`. -/
def calculate_kdj (df : List Candle) (n : Nat := 9) (m1 : ℚ := 3) (m2 : ℚ := 3) :
    PFloat × PFloat × PFloat :=
  if df.isEmpty then (PFloat.val 50, PFloat.val 50, PFloat.val 50)
  else
    let rsv := (List.range df.length).map (rsvAt df n)
    let k := ewmMean ((m1 - 1) / m1) rsv
    let d := ewmMean ((m2 - 1) / m2) k
    let kLast := k.getLastD PFloat.nan
    let dLast := d.getLastD PFloat.nan
    let jLast := PFloat.sub (PFloat.mul (PFloat.val 3) kLast)
      (PFloat.mul (PFloat.val 2) dLast)
    (kLast, dLast, jLast)

/-!
`PionexTradingBot._get_basic_signals` (trading_bot.py, lines 342-391)
and the advisory merge inside `check_signals` (lines 297-340).
-/

/-- The columns of the latest dataframe row that `_get_basic_signals`
reads (produced upstream by `calculate_indicators`). -/
structure LatestRow where
  price_change : PFloat
  volume_intensity : PFloat
  market_strength : PFloat
  price_position : PFloat
deriving DecidableEq, Repr

/-- The signals dict built by `_get_basic_signals` and updated by
`check_signals`. -/
structure Signals where
  price_change : PFloat
  volume_intensity : PFloat
  market_strength : PFloat
  price_position : PFloat
  should_trade : Bool
  direction : Option String
  trend_strong_up : Bool
  trend_strong_down : Bool
  rsi_oversold : Bool
  rsi_overbought : Bool
  kdj_oversold : Bool
  kdj_overbought : Bool
deriving DecidableEq, Repr

/-- The BUY trigger of `_get_basic_signals`:
`trend_strong_up and (rsi_oversold or kdj_oversold) and price_position < 30`. -/
def buyTrigger (s : Signals) : Bool :=
  s.trend_strong_up && (s.rsi_oversold || s.kdj_oversold) &&
    PFloat.ltb s.price_position (PFloat.val 30)

/-- The SELL trigger of `_get_basic_signals`:
`trend_strong_down and (rsi_overbought or kdj_overbought) and price_position > 70`. -/
def sellTrigger (s : Signals) : Bool :=
  s.trend_strong_down && (s.rsi_overbought || s.kdj_overbought) &&
    PFloat.gtb s.price_position (PFloat.val 70)

/-- `_get_basic_signals` as a function of the latest indicator row and
the `rsi`, `k`, `d` values computed from the frame (numpy comparisons:
nan compares false everywhere). -/
def _get_basic_signals (latest : LatestRow) (rsi k d : PFloat) : Signals :=
  let s0 : Signals :=
    { price_change := latest.price_change
      volume_intensity := latest.volume_intensity
      market_strength := latest.market_strength
      price_position := latest.price_position
      should_trade := false
      direction := none
      trend_strong_up := false
      trend_strong_down := false
      rsi_oversold := PFloat.ltb rsi (PFloat.val 30)
      rsi_overbought := PFloat.gtb rsi (PFloat.val 70)
      kdj_oversold := PFloat.ltb k (PFloat.val 20) && PFloat.ltb d (PFloat.val 20)
      kdj_overbought := PFloat.gtb k (PFloat.val 80) && PFloat.gtb d (PFloat.val 80) }
  let s1 :=
    if PFloat.gtb s0.market_strength (PFloat.val 0) &&
        PFloat.gtb s0.volume_intensity (PFloat.val 1000) then
      { s0 with trend_strong_up := true }
    else if PFloat.ltb s0.market_strength (PFloat.val 0) &&
        PFloat.gtb s0.volume_intensity (PFloat.val 1000) then
      { s0 with trend_strong_down := true }
    else s0
  if buyTrigger s1 then { s1 with should_trade := true, direction := some "buy" }
  else if sellTrigger s1 then { s1 with should_trade := true, direction := some "sell" }
  else s1

/-- `_get_basic_signals` composed with the indicator computations, as
`check_signals` invokes it (the `j` component of the KDJ triple is
unused by the source). -/
def get_basic_signals (df : List Candle) (latest : LatestRow) : Signals :=
  let rsi := calculate_rsi (df.map Candle.close)
  let kdj := calculate_kdj df
  _get_basic_signals latest rsi kdj.1 kdj.2.1

/-- The parsed AI trading recommendation (`get_trading_recommendation`
result); its `action` entry may be a string or Python `None` (the
stub extractors return `None`). -/
structure AIRecommendation where
  action : Option String
deriving DecidableEq, Repr

/-- The advisory-merge step of `check_signals`:

    signals.update(
      should_trade = signals.should_trade or ai_recommendation.action != hold,
      direction = ai_recommendation.action if action != hold else signals.direction)

(Python `None != 'hold'` is true, so a `None` action also sets
`should_trade` and overwrites the direction with `None`.) -/
def merge_ai_recommendation (signals : Signals) (rec : AIRecommendation) : Signals :=
  { signals with
    should_trade := signals.should_trade || decide (rec.action ≠ some "hold")
    direction := if rec.action ≠ some "hold" then rec.action else signals.direction }

/-- Every instance attribute ever assigned (`self.name = ...`) in
`class PionexTradingBot` (trading_bot.py); the class contains no
`setattr` and no augmented first assignment, so these are the only
attribute names an instance can carry. -/
def pionexTradingBotAttrNames : List String :=
  ["ai_advisor", "api_key", "api_secret", "base_url", "config", "headers",
   "is_trading", "last_check_time", "market_analyzer", "market_data",
   "settings", "trading_pairs"]

/-- `PionexTradingBot._prepare_market_data` (trading_bot.py, lines
393-409): the returned dict begins with `self.current_symbol`, an
attribute no code ever assigns, so the lookup raises `AttributeError`
before the dict is built.  The success branch has no reachable body to
model (were the attribute present, `latest_data.name.isoformat()` on
the integer-indexed frames of `get_market_data` would raise next). -/
def _prepare_market_data : Except String Unit :=
  if pionexTradingBotAttrNames.contains "current_symbol" then Except.ok ()
  else Except.error
    "AttributeError: PionexTradingBot object has no attribute current_symbol"

/-- `check_signals` (trading_bot.py, lines 297-340) at the signal
level: an empty frame returns `None`; with no advisor configured the
basic signals pass through untouched; with an advisor the body first
calls `_prepare_market_data`, whose `AttributeError` reaches the
enclosing handler, which logs and returns `None`.  Only if
`_prepare_market_data` succeeded would the LLM-call results - folded
into the optional `ai_recommendation` input, absent when either
external call returns nothing - reach the merge. -/
def check_signals (df_isEmpty : Bool) (signals : Signals)
    (ai_advisor_configured : Bool) (ai_recommendation : Option AIRecommendation) :
    Option Signals :=
  if df_isEmpty then none
  else if ai_advisor_configured then
    match _prepare_market_data with
    | Except.error _ => none
    | Except.ok _ =>
      match ai_recommendation with
      | none => some signals
      | some rec => some (merge_ai_recommendation signals rec)
  else some signals

end TradingBot

namespace MarketAnalyzer

/-!
`EnhancedMarketAnalyzer.analyze_market` and
`EnhancedMarketAnalyzer.analyze_market_sentiment` (market_analyzer.py).
Dataframe rows are association lists from column names to cell values.
A cell is either a number or a value `float()` rejects (a plain string
or Python `None`); the numeric columns of the frames reaching these
functions are produced upstream by `pd.to_numeric`, so numeric strings
are not modelled separately.
-/

/-- A dataframe cell. -/
inductive PyVal where
  | num (q : ℚ)
  | str (s : String)
  | none
deriving DecidableEq, Repr

/-- Python truthiness of a cell (`if not symbol`). -/
def PyVal.truthy : PyVal → Bool
  | PyVal.num q => q != 0
  | PyVal.str s => s != ""
  | PyVal.none => false

/-- `float(x)`: fails (ValueError/TypeError) on non-numbers. -/
def PyVal.toFloat : PyVal → Option ℚ
  | PyVal.num q => some q
  | _ => Option.none

/-- One dataframe row (`iloc[-1].to_dict()`). -/
def Row : Type := List (String × PyVal)

instance : DecidableEq Row := inferInstanceAs (DecidableEq (List (String × PyVal)))

/-- `latest_data.get(field)`. -/
def getField (r : Row) (k : String) : Option PyVal :=
  (r.find? (fun p => p.1 == k)).map (fun p => p.2)

/-- `float(latest_data[field])` as an optional rational. -/
def getFloat (r : Row) (k : String) : Option ℚ :=
  (getField r k).bind PyVal.toFloat

/-- The required columns checked by both analysis functions. -/
def requiredFields : List String :=
  ["close", "volume", "price_change", "volume_intensity", "true_range"]

/-- The signals dict produced by `analyze_market`. -/
structure MarketSignals where
  symbol : PyVal
  timestamp : Option PyVal
  should_trade : Bool
  trade_direction : Option String
  confidence : ℚ
  price : ℚ
  volume : ℚ
  price_change : ℚ
  volume_intensity : ℚ
  volatility : ℚ
  market_strength : ℚ
  trend_strength : ℚ
  volume_trend : ℚ
  volatility_level : ℚ
  market_momentum : ℚ
  score : ℚ
deriving DecidableEq, Repr

/-- The computation `analyze_market` performs once the five numeric
fields have been extracted from the latest row (lines 241-287 of
market_analyzer.py). -/
def mkMarketSignals (symbol : PyVal) (timestamp : Option PyVal)
    (price volume price_change volume_intensity true_range : ℚ) : MarketSignals :=
  let volatility : ℚ := if price > 0 then true_range / price else 0
  let market_strength : ℚ := if price_change > 0 ∧ volume_intensity > 1000 then 1 else -1
  let trend_strength := market_strength
  let volume_trend : ℚ := if volume_intensity > 1000 then 1 else -1
  let market_momentum := price_change / 100
  let technical_score := market_strength
  let sentiment_score := (trend_strength + volume_trend + market_momentum) / 3
  let total_score := technical_score * (6/10) + sentiment_score * (4/10)
  let base : MarketSignals :=
    { symbol := symbol
      timestamp := timestamp
      should_trade := false
      trade_direction := none
      confidence := 0
      price := price
      volume := volume
      price_change := price_change
      volume_intensity := volume_intensity
      volatility := volatility
      market_strength := market_strength
      trend_strength := trend_strength
      volume_trend := volume_trend
      volatility_level := volatility
      market_momentum := market_momentum
      score := total_score }
  if |total_score| > 1/2 then
    { base with
      should_trade := true
      trade_direction := some (if total_score > 0 then "buy" else "sell")
      confidence := |total_score| }
  else base

/-- `EnhancedMarketAnalyzer.analyze_market`: validation chain followed
by the signal computation; every failure returns `None`. -/
def analyze_market (market_data : List Row) : Option MarketSignals :=
  if market_data.isEmpty then Option.none
  else
    (market_data.getLast?).bind (fun latest =>
      (getField latest "symbol").bind (fun symv =>
        if ¬ symv.truthy then Option.none
        else if ¬ (requiredFields.all (fun f => (getField latest f).isSome)) then Option.none
        else do
          let price ← getFloat latest "close"
          let volume ← getFloat latest "volume"
          let price_change ← getFloat latest "price_change"
          let volume_intensity ← getFloat latest "volume_intensity"
          let true_range ← getFloat latest "true_range"
          pure (mkMarketSignals symv (getField latest "timestamp")
            price volume price_change volume_intensity true_range)))

/-- The sentiment dict produced by `analyze_market_sentiment`. -/
structure Sentiment where
  fear_greed_index : ℚ
  trend_strength : ℚ
  volume_trend : ℚ
  volatility_level : ℚ
  market_momentum : ℚ
deriving DecidableEq, Repr

/-- The per-frame body of `analyze_market_sentiment` (validation
chain and sentiment dict construction); every failure returns `None`,
and the success path fills `fear_greed_index` with the hard-coded
default 50. -/
def analyzeSentimentFrame (data : List Row) : Option Sentiment :=
  if data.isEmpty then Option.none
  else
    (data.getLast?).bind (fun latest =>
      if ¬ (requiredFields.all (fun f => (getField latest f).isSome)) then Option.none
      else do
        let price ← getFloat latest "close"
        let _volume ← getFloat latest "volume"
        let price_change ← getFloat latest "price_change"
        let volume_intensity ← getFloat latest "volume_intensity"
        let true_range ← getFloat latest "true_range"
        pure
          { fear_greed_index := 50
            trend_strength := if price_change > 0 then 1 else -1
            volume_trend := if volume_intensity > 1000 then 1 else -1
            volatility_level := if price > 0 then true_range / price else 0
            market_momentum := price_change / 100 })

/-- `EnhancedMarketAnalyzer.analyze_market_sentiment`: when
`market_data` is `none` the function falls back to fetching data
itself (`get_market_data`), whose result enters here as `fetched`. -/
def analyze_market_sentiment (fetched : Option (List Row))
    (market_data : Option (List Row)) : Option Sentiment :=
  match (match market_data with | Option.none => fetched | some d => some d) with
  | Option.none => Option.none
  | some data => analyzeSentimentFrame data

/-- The success/failure discriminator of one sentiment frame, written
from the error-handling taxonomy of the spec: the frame is usable iff
it is non-empty and every required column of its last row is present
and numeric. -/
def sentimentFrameOK (data : List Row) : Bool :=
  ((data.getLast?).map
    (fun latest => requiredFields.all (fun f => (getFloat latest f).isSome))).getD false

/-- The success/failure discriminator lifted to the two optional frame
sources of `analyze_market_sentiment`. -/
def sentimentInputOK (fetched market_data : Option (List Row)) : Bool :=
  match (match market_data with | Option.none => fetched | some d => some d) with
  | Option.none => false
  | some data => sentimentFrameOK data

end MarketAnalyzer

namespace RiskManager

/-!
`RiskManager.check_position_risk` (risk_manager.py, lines 9-21):

    max_loss = config.risk_management.max_loss_percentage
    initial_price = positions.get(symbol, dict()).get(entry_price, current_price)
    loss_percentage = ((current_price - initial_price) / initial_price) * 100
    if abs(loss_percentage) > max_loss: return should_close=True, reason=...
    return should_close=False

A zero `initial_price` makes the Python division raise
`ZeroDivisionError` (there is no local handler), which the embedding
surfaces as `Except.error`.  The interpolated percentage inside the
reason f-string is elided from the modelled reason text.
-/

/-- The outcome dict of `check_position_risk`. -/
structure RiskDecision where
  should_close : Bool
  reason : Option String
deriving DecidableEq, Repr

/-- `positions.get(symbol, dict()).get(entry_price, current_price)`. -/
def lookupEntryPrice (positions : List (String × List (String × ℚ)))
    (symbol : String) (current_price : ℚ) : ℚ :=
  match positions.find? (fun p => p.1 == symbol) with
  | Option.none => current_price
  | some (_, d) =>
    match d.find? (fun p => p.1 == "entry_price") with
    | Option.none => current_price
    | some (_, p) => p

/-- `RiskManager.check_position_risk`.  The `position_size` argument is
accepted and unused, exactly as in the source. -/
def check_position_risk (max_loss : ℚ)
    (positions : List (String × List (String × ℚ)))
    (symbol : String) (position_size : ℚ) (current_price : ℚ) :
    Except String RiskDecision :=
  let initial_price := lookupEntryPrice positions symbol current_price
  if initial_price = 0 then Except.error "ZeroDivisionError"
  else
    let loss_percentage := (current_price - initial_price) / initial_price * 100
    if |loss_percentage| > max_loss then
      Except.ok { should_close := true, reason := some "Max loss threshold exceeded" }
    else Except.ok { should_close := false, reason := Option.none }

end RiskManager

namespace TradingBot

/-!
`PionexTradingBot.calculate_position_size` (trading_bot.py, lines
904-925): after fetching the current price and the market sentiment it
evaluates `self.calculate_sentiment_factor(sentiment)`.  The class
defines no such attribute (the full list of its method names follows),
so the attribute lookup raises `AttributeError`; the local handler
logs and re-raises.
-/

/-- Every method name defined on `class PionexTradingBot`
(trading_bot.py). -/
def pionexTradingBotMethods : List String :=
  ["__init__", "generate_signature", "make_request", "test_connection",
   "get_market_data", "setup_logging", "load_config", "calculate_indicators",
   "check_signals", "_get_basic_signals", "_prepare_market_data",
   "_prepare_technical_indicators", "_get_risk_profile",
   "optimize_strategy_parameters", "_get_historical_performance",
   "_update_strategy_parameters", "calculate_rsi", "calculate_kdj",
   "initialize_trading", "update_investment_amounts", "save_config",
   "analyze_market_condition", "analyze_trend", "analyze_volatility",
   "analyze_volume", "analyze_momentum", "execute_trading_strategy",
   "update_trading_pairs", "schedule_update", "optimize_investment_allocation",
   "calculate_investment_score", "start_market_data_update",
   "get_account_status", "validate_investment_amount", "get_current_price",
   "calculate_position_size", "place_order", "optimize_position_management",
   "calculate_dynamic_targets", "start_trading", "trading_loop",
   "place_buy_order", "place_sell_order"]

/-- `PionexTradingBot.calculate_position_size`: `current_price` and
`sentiment` are the results of the two preceding calls (both total in
the source: each swallows its own errors and returns a value or
`None`); the subsequent attribute lookup of
`calculate_sentiment_factor` has no continuation to model because the
method does not exist anywhere in the class. -/
def calculate_position_size (symbol : String) (risk_amount : ℚ)
    (current_price : Option ℚ) (sentiment : Option MarketAnalyzer.Sentiment) :
    Except String (ℚ × ℚ) :=
  if pionexTradingBotMethods.contains "calculate_sentiment_factor" then
    Except.error "unreachable"
  else
    Except.error
      "AttributeError: PionexTradingBot object has no attribute calculate_sentiment_factor"

end TradingBot

namespace SHA256

/-!
Modelled from the spec: the Exchange Gateway signs with
"Signature = HMAC-SHA256(secret, signing_string), hex-encoded".  The
Python `hashlib`/`hmac` primitives used by `trading_bot.py` are
standard-library code, not part of this repository, so they are
modelled here by the standard FIPS 180-4 / RFC 2104 algorithms over
byte lists (bytes are `Nat` below 256, words are `Nat` below 2^32).
-/

/-- 32-bit modulus. -/
def M32 : Nat := 2 ^ 32

/-- Rotate a 32-bit word right by `k`. -/
def rotr (k x : Nat) : Nat := ((x >>> k) ||| (x <<< (32 - k))) % M32

/-- Bitwise complement of a 32-bit word. -/
def bnot32 (x : Nat) : Nat := x ^^^ (M32 - 1)

/-- SHA-256 choose function. -/
def ch (x y z : Nat) : Nat := (x &&& y) ^^^ (bnot32 x &&& z)

/-- SHA-256 majority function. -/
def maj (x y z : Nat) : Nat := (x &&& y) ^^^ (x &&& z) ^^^ (y &&& z)

/-- Big sigma-0. -/
def bigS0 (x : Nat) : Nat := rotr 2 x ^^^ rotr 13 x ^^^ rotr 22 x

/-- Big sigma-1. -/
def bigS1 (x : Nat) : Nat := rotr 6 x ^^^ rotr 11 x ^^^ rotr 25 x

/-- Small sigma-0. -/
def smallS0 (x : Nat) : Nat := rotr 7 x ^^^ rotr 18 x ^^^ (x >>> 3)

/-- Small sigma-1. -/
def smallS1 (x : Nat) : Nat := rotr 17 x ^^^ rotr 19 x ^^^ (x >>> 10)

/-- The 64 SHA-256 round constants. -/
def K : List Nat :=
  [1116352408, 1899447441, 3049323471, 3921009573, 961987163,
   1508970993, 2453635748, 2870763221, 3624381080, 310598401,
   607225278, 1426881987, 1925078388, 2162078206, 2614888103,
   3248222580, 3835390401, 4022224774, 264347078, 604807628,
   770255983, 1249150122, 1555081692, 1996064986, 2554220882,
   2821834349, 2952996808, 3210313671, 3336571891, 3584528711,
   113926993, 338241895, 666307205, 773529912, 1294757372,
   1396182291, 1695183700, 1986661051, 2177026350, 2456956037,
   2730485921, 2820302411, 3259730800, 3345764771, 3516065817,
   3600352804, 4094571909, 275423344, 430227734, 506948616,
   659060556, 883997877, 958139571, 1322822218, 1537002063,
   1747873779, 1955562222, 2024104815, 2227730452, 2361852424,
   2428436474, 2756734187, 3204031479, 3329325298]

/-- The initial hash state. -/
def initH : List Nat :=
  [1779033703, 3144134277, 1013904242, 2773480762,
   1359893119, 2600822924, 528734635, 1541459225]

/-- Big-endian byte expansion of `n` to `k` bytes. -/
def bytesBE (k n : Nat) : List Nat :=
  (List.range k).map (fun i => (n >>> (8 * (k - 1 - i))) % 256)

/-- SHA-256 message padding. -/
def padMessage (msg : List Nat) : List Nat :=
  let len := msg.length
  let zeros := (55 + 64 - len % 64) % 64
  msg ++ [0x80] ++ List.replicate zeros 0 ++ bytesBE 8 (8 * len)

/-- Split a byte list into 64-byte chunks. -/
def chunks64 : List Nat → List (List Nat)
  | [] => []
  | l@(_ :: _) => l.take 64 :: chunks64 (l.drop 64)
termination_by l => l.length
decreasing_by simp_all [List.length_drop]; omega

/-- The sixteen 32-bit words of one 64-byte chunk (big-endian). -/
def chunkWords (c : List Nat) : List Nat :=
  (List.range 16).map (fun i =>
    (c.getD (4 * i) 0) <<< 24 ||| (c.getD (4 * i + 1) 0) <<< 16 |||
      (c.getD (4 * i + 2) 0) <<< 8 ||| c.getD (4 * i + 3) 0)

/-- The next word of the message schedule. -/
def nextWord (w : List Nat) : Nat :=
  (smallS1 (w.getD (w.length - 2) 0) + w.getD (w.length - 7) 0 +
    smallS0 (w.getD (w.length - 15) 0) + w.getD (w.length - 16) 0) % M32

/-- Extend sixteen schedule words to sixty-four. -/
def extendWords (w : List Nat) : List Nat :=
  (List.range 48).foldl (fun acc _ => acc ++ [nextWord acc]) w

/-- One SHA-256 compression round on the eight-word state. -/
def round (st : List Nat) (w k : Nat) : List Nat :=
  let a := st.getD 0 0
  let b := st.getD 1 0
  let c := st.getD 2 0
  let d := st.getD 3 0
  let e := st.getD 4 0
  let f := st.getD 5 0
  let g := st.getD 6 0
  let h := st.getD 7 0
  let t1 := (h + bigS1 e + ch e f g + k + w) % M32
  let t2 := (bigS0 a + maj a b c) % M32
  [(t1 + t2) % M32, a, b, c, (d + t1) % M32, e, f, g]

/-- Process one 64-byte chunk. -/
def processChunk (st : List Nat) (chunk : List Nat) : List Nat :=
  let ws := extendWords (chunkWords chunk)
  let fin := (ws.zip K).foldl (fun s p => round s p.1 p.2) st
  (List.range 8).map (fun i => (st.getD i 0 + fin.getD i 0) % M32)

/-- SHA-256 of a byte list, as 32 bytes. -/
def sha256 (msg : List Nat) : List Nat :=
  let st := (chunks64 (padMessage msg)).foldl processChunk initH
  st.flatMap (bytesBE 4)

/-- HMAC-SHA256 (RFC 2104, block size 64). -/
def hmacSha256 (key msg : List Nat) : List Nat :=
  let k0 := if 64 < key.length then sha256 key else key
  let k1 := k0 ++ List.replicate (64 - k0.length) 0
  let ipadded := k1.map (fun b => b ^^^ 0x36)
  let opadded := k1.map (fun b => b ^^^ 0x5c)
  sha256 (opadded ++ sha256 (ipadded ++ msg))

/-- Lower-case hex digit. -/
def hexDigit (n : Nat) : Char :=
  if n < 10 then Char.ofNat (48 + n) else Char.ofNat (87 + n)

/-- Two-digit hex rendering of one byte. -/
def byteHex (b : Nat) : String :=
  String.mk [hexDigit (b / 16), hexDigit (b % 16)]

/-- Hex string of a byte list (`hexdigest()`). -/
def bytesToHex (bs : List Nat) : String :=
  String.join (bs.map byteHex)

/-- UTF-8 encoding of one character (`str.encode(utf-8)`). -/
def encodeChar (c : Char) : List Nat :=
  let n := c.toNat
  if n < 0x80 then [n]
  else if n < 0x800 then [0xC0 ||| (n >>> 6), 0x80 ||| (n &&& 0x3F)]
  else if n < 0x10000 then
    [0xE0 ||| (n >>> 12), 0x80 ||| ((n >>> 6) &&& 0x3F), 0x80 ||| (n &&& 0x3F)]
  else
    [0xF0 ||| (n >>> 18), 0x80 ||| ((n >>> 12) &&& 0x3F),
     0x80 ||| ((n >>> 6) &&& 0x3F), 0x80 ||| (n &&& 0x3F)]

/-- UTF-8 bytes of a string. -/
def utf8Bytes (s : String) : List Nat := s.data.flatMap encodeChar

/-- `hmac.new(secret.encode(), message.encode(), hashlib.sha256).hexdigest()`. -/
def hmacSha256Hex (secret message : String) : String :=
  bytesToHex (hmacSha256 (utf8Bytes secret) (utf8Bytes message))

end SHA256

namespace TradingBot

/-!
`PionexTradingBot.generate_signature` (trading_bot.py, lines 61-92):

    sign_params = params.copy(); sign_params[timestamp] = timestamp
    sorted_params = sorted(sign_params.items(), key=lambda x: x[0])
    param_str = ampersand-join of key=value over sorted_params
    sign_str = method.upper() + endpoint
    if param_str: sign_str = sign_str + "?" + param_str
    signature = hmac.new(secret, sign_str, sha256).hexdigest()
    return signature, timestamp

The wall-clock timestamp generated inside the function is modelled as
an explicit argument.  A `dict` is an association list whose keys are
pairwise distinct; parameter values are the strings interpolated by
the f-string.
-/

/-- `d[k] = v` on a dict: replace the value of an existing key in
place, else append the new pair. -/
def dictSet (params : List (String × String)) (k v : String) :
    List (String × String) :=
  match params with
  | [] => [(k, v)]
  | (a, b) :: t => if a = k then (k, v) :: t else (a, b) :: dictSet t k v

/-- Comparison by key used by `sorted(..., key=lambda x: x[0])`. -/
def keyLE (a b : String × String) : Prop := a.1 ≤ b.1

instance : DecidableRel keyLE :=
  fun a b => inferInstanceAs (Decidable (a.1 ≤ b.1))

instance : IsTotal (String × String) keyLE :=
  ⟨fun a b => le_total a.1 b.1⟩

instance : IsTrans (String × String) keyLE :=
  ⟨fun _ _ _ h1 h2 => le_trans h1 h2⟩

/-- Strict comparison by key, used to show that two sorts of the same
parameter dict agree. -/
def keyLT (a b : String × String) : Prop := a.1 < b.1

instance : IsAntisymm (String × String) keyLT :=
  ⟨fun _ _ h1 h2 => absurd h1 (lt_asymm h2)⟩

/-- Python `method.upper()`: character-wise ASCII upper-casing (the
bot only ever passes ASCII method names). -/
def pyUpper (s : String) : String := String.mk (s.data.map Char.toUpper)

/-- Python `"&".join`. -/
def joinAmp : List String → String
  | [] => ""
  | [x] => x
  | x :: y :: t => x ++ "&" ++ joinAmp (y :: t)

/-- The sorted `key=value` parameter string. -/
def paramStr (l : List (String × String)) : String :=
  joinAmp ((l.insertionSort keyLE).map (fun p => p.1 ++ "=" ++ p.2))

/-- The signing string `sign_str` built by `generate_signature`. -/
def signString (params : List (String × String)) (method endpoint timestamp : String) :
    String :=
  let sign_params := dictSet params "timestamp" timestamp
  let ps := paramStr sign_params
  if ps ≠ "" then pyUpper method ++ endpoint ++ "?" ++ ps
  else pyUpper method ++ endpoint

/-- `PionexTradingBot.generate_signature`. -/
def generate_signature (api_secret : String) (params : List (String × String))
    (method endpoint timestamp : String) : String × String :=
  (SHA256.hmacSha256Hex api_secret (signString params method endpoint timestamp),
   timestamp)

/-- Modelled from the spec: "Canonical signing string = UPPERCASE(method)
+ path + quote-question + sorted_key_equals_value_joined_by_ampersand
(params with the timestamp entry replaced by the given timestamp)". -/
def canonicalSigningString (method path : String) (params : List (String × String))
    (timestamp : String) : String :=
  let union := params.filter (fun p => p.1 != "timestamp") ++ [("timestamp", timestamp)]
  pyUpper method ++ path ++ "?" ++
    joinAmp ((union.insertionSort keyLE).map (fun p => p.1 ++ "=" ++ p.2))

end TradingBot

/-!
## Theorems settling the claims
-/

/-- A BUY trigger and a SELL trigger can never hold of the same signals
dict: the price-position conditions (`< 30` and `> 70`) are
incompatible for every possible value, nan included. -/
theorem TradingBot.trigger_exclusive (s : TradingBot.Signals) :
    (TradingBot.buyTrigger s && TradingBot.sellTrigger s) = false := by
  unfold TradingBot.buyTrigger TradingBot.sellTrigger
  cases hpp : s.price_position with
  | nan => simp [PFloat.ltb, PFloat.gtb]
  | inf => simp [PFloat.ltb, PFloat.gtb]
  | ninf => simp [PFloat.ltb, PFloat.gtb]
  | val q =>
    by_cases h : q < 30
    · have h2 : ¬ (70 < q) := by linarith
      simp [PFloat.ltb, PFloat.gtb, h, h2]
    · simp [PFloat.ltb, PFloat.gtb, h]

/-- Claim C3: for every combination of indicator inputs
(market strength, volume intensity, RSI, K, D, price position), the BUY
trigger and the SELL trigger of `_get_basic_signals` are never
simultaneously true, so one evaluation never marks both directions. -/
theorem c3_signal_exclusivity (latest : TradingBot.LatestRow) (rsi k d : PFloat) :
    (TradingBot.buyTrigger (TradingBot._get_basic_signals latest rsi k d) &&
      TradingBot.sellTrigger (TradingBot._get_basic_signals latest rsi k d)) = false :=
  TradingBot.trigger_exclusive _

/-- Claim C1 counterexample: the technical rules alone decide BUY
(the oversold scenario of the spec), but with an advisor configured
`check_signals` returns `None`: `_prepare_market_data` raises on the
never-assigned `current_symbol` attribute and the enclosing handler
swallows the whole result.  The technical BUY does not survive the
advisory path at all - it is dropped, not preserved. -/
theorem c1_counterexample :
    (TradingBot._get_basic_signals
        ⟨PFloat.val 1, PFloat.val 2000, PFloat.val 1, PFloat.val 20⟩
        (PFloat.val 25) (PFloat.val 15) (PFloat.val 18)).direction = some "buy" ∧
    TradingBot.check_signals false
        (TradingBot._get_basic_signals
          ⟨PFloat.val 1, PFloat.val 2000, PFloat.val 1, PFloat.val 20⟩
          (PFloat.val 25) (PFloat.val 15) (PFloat.val 18))
        true (some ⟨some "sell"⟩) = none ∧
    (none : Option TradingBot.Signals) ≠
      some (TradingBot._get_basic_signals
        ⟨PFloat.val 1, PFloat.val 2000, PFloat.val 1, PFloat.val 20⟩
        (PFloat.val 25) (PFloat.val 15) (PFloat.val 18)) := by
  exact ⟨by decide, rfl, by decide⟩

/-- Claim C1 (amended): the advisory merge is dead code.  The class
never assigns `current_symbol`, so whenever an advisor is configured
`check_signals` returns `None` for every recommendation - even a
technical BUY/SELL is dropped rather than preserved or overridden -
while with no advisor the basic signals pass through unchanged (and an
empty frame yields `None`).  No advisory recommendation ever upgrades
a HOLD or overrides a direction in this program. -/
theorem c1_advisory_path_dead :
    (TradingBot.pionexTradingBotAttrNames.contains "current_symbol") = false ∧
    ∀ (signals : TradingBot.Signals) (rec : Option TradingBot.AIRecommendation),
      TradingBot.check_signals false signals true rec = none ∧
      TradingBot.check_signals false signals false rec = some signals ∧
      TradingBot.check_signals true signals true rec = none := by
  refine ⟨by decide, ?_⟩
  intro signals rec
  exact ⟨rfl, rfl, rfl⟩

/-- Claim C9: the sentiment-factor position sizing path is dead code —
`calculate_sentiment_factor` is not among the methods of
`PionexTradingBot`, so `calculate_position_size` always raises
`AttributeError` instead of returning a size. -/
theorem c9_position_size_always_raises :
    (TradingBot.pionexTradingBotMethods.contains "calculate_sentiment_factor") = false ∧
    ∀ (symbol : String) (risk_amount : ℚ) (current_price : Option ℚ)
      (sentiment : Option MarketAnalyzer.Sentiment),
      TradingBot.calculate_position_size symbol risk_amount current_price sentiment =
        Except.error
          "AttributeError: PionexTradingBot object has no attribute calculate_sentiment_factor" := by
  refine ⟨by decide, ?_⟩
  intro symbol risk_amount current_price sentiment
  rfl

/-- Claim C5 counterexample: entry price 100, current price 210 — a
pure profit of 110 percent with a 10 percent max-loss setting — still
returns should_close, although the unrealized loss percentage is not
below minus max-loss. -/
theorem c5_counterexample :
    RiskManager.check_position_risk 10 [("BTC", [("entry_price", 100)])] "BTC" 1 210 =
      Except.ok ⟨true, some "Max loss threshold exceeded"⟩ ∧
    ¬ (((210 : ℚ) - 100) / 100 * 100 < -10) := by
  constructor
  · have hl : RiskManager.lookupEntryPrice [("BTC", [("entry_price", 100)])] "BTC" 210 =
        (100 : ℚ) := rfl
    simp only [RiskManager.check_position_risk, hl]
    norm_num
  · norm_num

/-- Claim C5 (amended): for a nonzero entry price the hard stop
requests a close exactly when the absolute price move exceeds the
max-loss threshold — in the loss direction or, symmetrically, in the
profit direction. -/
theorem c5_hard_stop (max_loss : ℚ) (positions : List (String × List (String × ℚ)))
    (symbol : String) (position_size current_price : ℚ)
    (h : RiskManager.lookupEntryPrice positions symbol current_price ≠ 0) :
    ∃ d : RiskManager.RiskDecision,
      RiskManager.check_position_risk max_loss positions symbol position_size
          current_price = Except.ok d ∧
      (d.should_close = true ↔
        ((current_price - RiskManager.lookupEntryPrice positions symbol current_price) /
            RiskManager.lookupEntryPrice positions symbol current_price * 100 < -max_loss ∨
          max_loss <
            (current_price - RiskManager.lookupEntryPrice positions symbol current_price) /
              RiskManager.lookupEntryPrice positions symbol current_price * 100)) := by
  unfold RiskManager.check_position_risk
  rw [if_neg h]
  set pct := (current_price - RiskManager.lookupEntryPrice positions symbol current_price) /
    RiskManager.lookupEntryPrice positions symbol current_price * 100 with hpct
  by_cases habs : |pct| > max_loss
  · refine ⟨⟨true, some "Max loss threshold exceeded"⟩, by rw [if_pos habs], ?_⟩
    constructor
    · intro _
      rcases lt_abs.mp habs with h1 | h1
      · exact Or.inr h1
      · exact Or.inl (by linarith)
    · intro _
      rfl
  · refine ⟨⟨false, Option.none⟩, by rw [if_neg habs], ?_⟩
    push_neg at habs
    rcases abs_le.mp habs with ⟨h1, h2⟩
    constructor
    · intro hcl
      exact absurd hcl (by simp)
    · intro hor
      rcases hor with h3 | h3 <;> exact absurd h3 (by linarith)

/-- Witness for the amended C5 theorem: entry 100, current 80 and a
10 percent limit give a forced close, and the characterization holds. -/
theorem c5_hard_stop_witness :
    ∃ d : RiskManager.RiskDecision,
      RiskManager.check_position_risk 10 [("BTC", [("entry_price", 100)])] "BTC" 1 80 =
        Except.ok d ∧
      (d.should_close = true ↔
        (((80 : ℚ) - RiskManager.lookupEntryPrice [("BTC", [("entry_price", 100)])] "BTC" 80) /
            RiskManager.lookupEntryPrice [("BTC", [("entry_price", 100)])] "BTC" 80 * 100 < -10 ∨
          (10 : ℚ) <
            ((80 : ℚ) - RiskManager.lookupEntryPrice [("BTC", [("entry_price", 100)])] "BTC" 80) /
              RiskManager.lookupEntryPrice [("BTC", [("entry_price", 100)])] "BTC" 80 * 100)) :=
  c5_hard_stop 10 [("BTC", [("entry_price", 100)])] "BTC" 1 80 (by decide)

/-- The sentiment frame body can only ever emit the constant default
fear-greed index. -/
theorem MarketAnalyzer.analyzeSentimentFrame_fear (data : List MarketAnalyzer.Row)
    (s : MarketAnalyzer.Sentiment)
    (h : MarketAnalyzer.analyzeSentimentFrame data = some s) :
    s.fear_greed_index = 50 := by
  unfold MarketAnalyzer.analyzeSentimentFrame at h
  by_cases hE : data.isEmpty
  · simp [hE] at h
  · rw [if_neg hE] at h
    rcases hgl : data.getLast? with _ | latest
    · rw [hgl] at h
      exact absurd h (by simp)
    · rw [hgl] at h
      simp only [Option.some_bind] at h
      by_cases hreq : (MarketAnalyzer.requiredFields.all
          (fun f => (MarketAnalyzer.getField latest f).isSome)) = true
      · rw [if_neg (by simp [hreq])] at h
        simp only [bind, Option.bind_eq_some] at h
        obtain ⟨p, hp, h⟩ := h
        obtain ⟨v, hv, h⟩ := h
        obtain ⟨pc, hpc, h⟩ := h
        obtain ⟨vi, hvi, h⟩ := h
        obtain ⟨tr, htr, h⟩ := h
        simp only [pure, Option.some.injEq] at h
        rw [← h]
      · rw [if_pos (by simp [hreq])] at h
        exact absurd h (by simp)

/-- Claim C10: every successful run of `analyze_market_sentiment`
returns `fear_greed_index = 50`, independent of every input — the
fear-greed formula of `calculate_fear_greed_index` is never invoked on
this path. -/
theorem c10_fear_greed_constant (fetched market_data : Option (List MarketAnalyzer.Row))
    (s : MarketAnalyzer.Sentiment)
    (h : MarketAnalyzer.analyze_market_sentiment fetched market_data = some s) :
    s.fear_greed_index = 50 := by
  unfold MarketAnalyzer.analyze_market_sentiment at h
  rcases market_data with _ | data
  · rcases fetched with _ | data
    · exact absurd h (by simp)
    · exact MarketAnalyzer.analyzeSentimentFrame_fear data s h
  · exact MarketAnalyzer.analyzeSentimentFrame_fear data s h

/-- Witness for C10 at a concrete successful input. -/
theorem c10_fear_greed_constant_witness :
    MarketAnalyzer.analyze_market_sentiment Option.none
        (some [[("close", MarketAnalyzer.PyVal.num 10),
          ("volume", MarketAnalyzer.PyVal.num 5000),
          ("price_change", MarketAnalyzer.PyVal.num 2),
          ("volume_intensity", MarketAnalyzer.PyVal.num 55000),
          ("true_range", MarketAnalyzer.PyVal.num 1)]]) =
      some ⟨50, 1, 1, 1/10, 1/50⟩ ∧
    (⟨50, 1, 1, 1/10, 1/50⟩ : MarketAnalyzer.Sentiment).fear_greed_index = 50 :=
  ⟨by simp [MarketAnalyzer.analyze_market_sentiment, MarketAnalyzer.analyzeSentimentFrame,
      MarketAnalyzer.getFloat, MarketAnalyzer.getField, MarketAnalyzer.requiredFields,
      MarketAnalyzer.PyVal.toFloat, List.find?]; norm_num,
   c10_fear_greed_constant Option.none
    (some [[("close", MarketAnalyzer.PyVal.num 10),
      ("volume", MarketAnalyzer.PyVal.num 5000),
      ("price_change", MarketAnalyzer.PyVal.num 2),
      ("volume_intensity", MarketAnalyzer.PyVal.num 55000),
      ("true_range", MarketAnalyzer.PyVal.num 1)]])
    ⟨50, 1, 1, 1/10, 1/50⟩
    (by simp [MarketAnalyzer.analyze_market_sentiment, MarketAnalyzer.analyzeSentimentFrame,
      MarketAnalyzer.getFloat, MarketAnalyzer.getField, MarketAnalyzer.requiredFields,
      MarketAnalyzer.PyVal.toFloat, List.find?]; norm_num)⟩

/-- The sentiment frame body succeeds exactly when the frame passes
the spec failure taxonomy. -/
theorem MarketAnalyzer.analyzeSentimentFrame_isSome (data : List MarketAnalyzer.Row) :
    (MarketAnalyzer.analyzeSentimentFrame data).isSome =
      MarketAnalyzer.sentimentFrameOK data := by
  unfold MarketAnalyzer.analyzeSentimentFrame MarketAnalyzer.sentimentFrameOK
  rcases hgl : data.getLast? with _ | latest
  · have hnil : data = [] := by
      cases data with
      | nil => rfl
      | cons a t => simp [List.getLast?_concat] at hgl
    subst hnil
    simp
  · have hne : ¬ data.isEmpty = true := by
      intro hE
      have : data = [] := List.isEmpty_iff.mp hE
      subst this
      simp at hgl
    rw [if_neg hne]
    simp only [Option.some_bind, Option.map_some', Option.getD_some]
    by_cases hpres : (MarketAnalyzer.requiredFields.all
        (fun f => (MarketAnalyzer.getField latest f).isSome)) = true
    · rw [if_neg (by simp [hpres])]
      rcases h1 : MarketAnalyzer.getFloat latest "close" with _ | p <;>
        rcases h2 : MarketAnalyzer.getFloat latest "volume" with _ | v <;>
          rcases h3 : MarketAnalyzer.getFloat latest "price_change" with _ | pc <;>
            rcases h4 : MarketAnalyzer.getFloat latest "volume_intensity" with _ | vi <;>
              rcases h5 : MarketAnalyzer.getFloat latest "true_range" with _ | tr <;>
                simp [MarketAnalyzer.requiredFields, h1, h2, h3, h4, h5, bind]
    · rw [if_pos (by simp [hpres])]
      rw [List.all_eq_true] at hpres
      push_neg at hpres
      obtain ⟨f, hf, hnp⟩ := hpres
      simp only [Option.isSome_none]
      symm
      rw [List.all_eq_false]
      refine ⟨f, hf, ?_⟩
      have hfield : MarketAnalyzer.getField latest f = Option.none := by
        cases hx : MarketAnalyzer.getField latest f with
        | none => rfl
        | some p => exact absurd (by simp [hx]) hnp
      simp [MarketAnalyzer.getFloat, hfield]

/-- Claim C8 counterexample: on an empty data frame the sentiment
computation returns Python `None` — an absent result — not the neutral
default snapshot the claim promises. -/
theorem c8_counterexample :
    MarketAnalyzer.analyze_market_sentiment Option.none
        (some ([] : List MarketAnalyzer.Row)) = Option.none ∧
    (Option.none : Option MarketAnalyzer.Sentiment) ≠
      some ⟨50, 0, 0, 0, 0⟩ :=
  ⟨rfl, by decide⟩

/-- Claim C8 (amended): `analyze_market_sentiment` never raises; it
succeeds exactly on usable inputs (a frame is available, non-empty,
and every required column of its last row is present and numeric) and
returns `None` — not the neutral snapshot — on every failure. -/
theorem c8_failure_returns_none (fetched market_data : Option (List MarketAnalyzer.Row)) :
    (MarketAnalyzer.analyze_market_sentiment fetched market_data).isSome =
      MarketAnalyzer.sentimentInputOK fetched market_data := by
  unfold MarketAnalyzer.analyze_market_sentiment MarketAnalyzer.sentimentInputOK
  rcases market_data with _ | data
  · rcases fetched with _ | data
    · rfl
    · exact MarketAnalyzer.analyzeSentimentFrame_isSome data
  · exact MarketAnalyzer.analyzeSentimentFrame_isSome data

/-- The `price_change` field survives the signal construction
unchanged. -/
theorem MarketAnalyzer.mkMarketSignals_price_change (symv : MarketAnalyzer.PyVal)
    (ts : Option MarketAnalyzer.PyVal)
    (price volume price_change volume_intensity true_range : ℚ) :
    (MarketAnalyzer.mkMarketSignals symv ts price volume price_change
        volume_intensity true_range).price_change = price_change := by
  unfold MarketAnalyzer.mkMarketSignals
  dsimp only
  rw [apply_ite MarketAnalyzer.MarketSignals.price_change]
  simp

/-- Confidence facts about the signal construction of
`analyze_market`: confidence is non-negative; when a trade is flagged
it equals the absolute composite score and exceeds one half; and it is
bounded by 1 whenever the price-change input is within ±100. -/
theorem MarketAnalyzer.mkMarketSignals_confidence (symv : MarketAnalyzer.PyVal)
    (ts : Option MarketAnalyzer.PyVal)
    (price volume price_change volume_intensity true_range : ℚ) :
    0 ≤ (MarketAnalyzer.mkMarketSignals symv ts price volume price_change
        volume_intensity true_range).confidence ∧
    ((MarketAnalyzer.mkMarketSignals symv ts price volume price_change
        volume_intensity true_range).should_trade = true →
      (MarketAnalyzer.mkMarketSignals symv ts price volume price_change
          volume_intensity true_range).confidence =
        |(MarketAnalyzer.mkMarketSignals symv ts price volume price_change
            volume_intensity true_range).score| ∧
      1/2 < (MarketAnalyzer.mkMarketSignals symv ts price volume price_change
          volume_intensity true_range).confidence) ∧
    (|price_change| ≤ 100 →
      (MarketAnalyzer.mkMarketSignals symv ts price volume price_change
          volume_intensity true_range).confidence ≤ 1) := by
  have hbound : |price_change| ≤ 100 →
      |(if price_change > 0 ∧ volume_intensity > 1000 then (1:ℚ) else -1) * (6/10) +
        (((if price_change > 0 ∧ volume_intensity > 1000 then (1:ℚ) else -1) +
            (if volume_intensity > 1000 then (1:ℚ) else -1) + price_change / 100) / 3) *
          (4/10)| ≤ 1 := by
    intro hpc
    rcases abs_le.mp hpc with ⟨hl, hr⟩
    rw [abs_le]
    by_cases h1 : price_change > 0 ∧ volume_intensity > 1000
    · by_cases h2 : volume_intensity > 1000
      · simp only [if_pos h1, if_pos h2]
        constructor <;> linarith
      · exact absurd h1.2 h2
    · by_cases h2 : volume_intensity > 1000
      · simp only [if_neg h1, if_pos h2]
        constructor <;> linarith
      · simp only [if_neg h1, if_neg h2]
        constructor <;> linarith
  unfold MarketAnalyzer.mkMarketSignals
  dsimp only
  set T : ℚ := (if price_change > 0 ∧ volume_intensity > 1000 then (1:ℚ) else -1) * (6 / 10) +
    ((if price_change > 0 ∧ volume_intensity > 1000 then (1:ℚ) else -1) +
      (if volume_intensity > 1000 then (1:ℚ) else -1) + price_change / 100) / 3 * (4 / 10)
    with hT
  simp only [apply_ite MarketAnalyzer.MarketSignals.confidence,
    apply_ite MarketAnalyzer.MarketSignals.should_trade,
    apply_ite MarketAnalyzer.MarketSignals.score]
  split
  case isTrue h =>
    exact ⟨abs_nonneg _, fun _ => ⟨rfl, h⟩, fun hpc => by rw [hT]; exact hbound hpc⟩
  case isFalse h =>
    exact ⟨le_refl 0, fun hst => absurd hst (by simp), fun _ => by norm_num⟩

/-- Every successful `analyze_market` result is the signal
construction applied to the extracted fields of the last row. -/
theorem MarketAnalyzer.analyze_market_shape (md : List MarketAnalyzer.Row)
    (s : MarketAnalyzer.MarketSignals) (h : MarketAnalyzer.analyze_market md = some s) :
    ∃ latest symv price volume price_change volume_intensity true_range,
      md.getLast? = some latest ∧
      s = MarketAnalyzer.mkMarketSignals symv
        (MarketAnalyzer.getField latest "timestamp")
        price volume price_change volume_intensity true_range := by
  unfold MarketAnalyzer.analyze_market at h
  by_cases hE : md.isEmpty
  · simp [hE] at h
  · rw [if_neg hE] at h
    rcases hgl : md.getLast? with _ | latest
    · rw [hgl] at h
      exact absurd h (by simp)
    · rw [hgl] at h
      simp only [Option.some_bind] at h
      rcases hsym : MarketAnalyzer.getField latest "symbol" with _ | symv
      · rw [hsym] at h
        exact absurd h (by simp)
      · rw [hsym] at h
        simp only [Option.some_bind] at h
        split_ifs at h with h1 h2
        simp only [bind, Option.bind_eq_some, pure, Option.some.injEq,
          reduceCtorEq] at h
        obtain ⟨p, hp, v, hv, pc, hpc, vi, hvi, tr, htr, hfin⟩ := h
        exact ⟨latest, symv, p, v, pc, vi, tr, rfl, hfin.symm⟩

/-- Claim C4 (amended): a successful `analyze_market` run yields a
non-negative confidence which, when a trade is flagged, equals the
absolute composite score and exceeds one half; the claimed bound
`confidence ≤ 1` holds only under `|price_change| ≤ 100` — for larger
price changes the confidence exceeds 1. -/
theorem c4_confidence_bounds (md : List MarketAnalyzer.Row)
    (s : MarketAnalyzer.MarketSignals)
    (h : MarketAnalyzer.analyze_market md = some s) :
    0 ≤ s.confidence ∧
    (s.should_trade = true → s.confidence = |s.score| ∧ 1/2 < s.confidence) ∧
    (|s.price_change| ≤ 100 → s.confidence ≤ 1) := by
  obtain ⟨latest, symv, p, v, pc, vi, tr, hgl, hs⟩ :=
    MarketAnalyzer.analyze_market_shape md s h
  subst hs
  rw [MarketAnalyzer.mkMarketSignals_price_change]
  exact MarketAnalyzer.mkMarketSignals_confidence symv
    (MarketAnalyzer.getField latest "timestamp") p v pc vi tr

/-- Witness for the amended C4 theorem at a concrete successful
analysis. -/
theorem c4_confidence_bounds_witness :
    0 ≤ (⟨MarketAnalyzer.PyVal.str "X", none, true, some "buy", 326/375, 10, 1, 2,
        55000, 1/10, 1, 1, 1, 1/10, 1/50, 326/375⟩ :
        MarketAnalyzer.MarketSignals).confidence ∧
    ((⟨MarketAnalyzer.PyVal.str "X", none, true, some "buy", 326/375, 10, 1, 2,
        55000, 1/10, 1, 1, 1, 1/10, 1/50, 326/375⟩ :
        MarketAnalyzer.MarketSignals).should_trade = true →
      (⟨MarketAnalyzer.PyVal.str "X", none, true, some "buy", 326/375, 10, 1, 2,
          55000, 1/10, 1, 1, 1, 1/10, 1/50, 326/375⟩ :
          MarketAnalyzer.MarketSignals).confidence =
        |(⟨MarketAnalyzer.PyVal.str "X", none, true, some "buy", 326/375, 10, 1, 2,
            55000, 1/10, 1, 1, 1, 1/10, 1/50, 326/375⟩ :
            MarketAnalyzer.MarketSignals).score| ∧
      1/2 < (⟨MarketAnalyzer.PyVal.str "X", none, true, some "buy", 326/375, 10, 1, 2,
          55000, 1/10, 1, 1, 1, 1/10, 1/50, 326/375⟩ :
          MarketAnalyzer.MarketSignals).confidence) ∧
    (|(⟨MarketAnalyzer.PyVal.str "X", none, true, some "buy", 326/375, 10, 1, 2,
        55000, 1/10, 1, 1, 1, 1/10, 1/50, 326/375⟩ :
        MarketAnalyzer.MarketSignals).price_change| ≤ 100 →
      (⟨MarketAnalyzer.PyVal.str "X", none, true, some "buy", 326/375, 10, 1, 2,
          55000, 1/10, 1, 1, 1, 1/10, 1/50, 326/375⟩ :
          MarketAnalyzer.MarketSignals).confidence ≤ 1) :=
  c4_confidence_bounds
    [[("symbol", MarketAnalyzer.PyVal.str "X"), ("close", MarketAnalyzer.PyVal.num 10),
      ("volume", MarketAnalyzer.PyVal.num 1), ("price_change", MarketAnalyzer.PyVal.num 2),
      ("volume_intensity", MarketAnalyzer.PyVal.num 55000),
      ("true_range", MarketAnalyzer.PyVal.num 1)]]
    ⟨MarketAnalyzer.PyVal.str "X", none, true, some "buy", 326/375, 10, 1, 2,
      55000, 1/10, 1, 1, 1, 1/10, 1/50, 326/375⟩
    (by
      simp [MarketAnalyzer.analyze_market, MarketAnalyzer.mkMarketSignals,
        MarketAnalyzer.getFloat, MarketAnalyzer.getField, MarketAnalyzer.PyVal.toFloat,
        MarketAnalyzer.PyVal.truthy, MarketAnalyzer.requiredFields, List.find?]
      norm_num [abs_of_pos])

/-- Claim C4 counterexample: a successful ticker analysis with a
price-change of 1000 percent flags a trade whose confidence is 11/5,
outside the claimed interval [0,1]. -/
theorem c4_counterexample :
    (MarketAnalyzer.analyze_market
        [[("symbol", MarketAnalyzer.PyVal.str "BTC_USDT_PERP"),
          ("close", MarketAnalyzer.PyVal.num 11),
          ("volume", MarketAnalyzer.PyVal.num 5000),
          ("price_change", MarketAnalyzer.PyVal.num 1000),
          ("volume_intensity", MarketAnalyzer.PyVal.num 55000),
          ("true_range", MarketAnalyzer.PyVal.num 1)]]).map
        MarketAnalyzer.MarketSignals.confidence = some (11/5) ∧
    (MarketAnalyzer.analyze_market
        [[("symbol", MarketAnalyzer.PyVal.str "BTC_USDT_PERP"),
          ("close", MarketAnalyzer.PyVal.num 11),
          ("volume", MarketAnalyzer.PyVal.num 5000),
          ("price_change", MarketAnalyzer.PyVal.num 1000),
          ("volume_intensity", MarketAnalyzer.PyVal.num 55000),
          ("true_range", MarketAnalyzer.PyVal.num 1)]]).map
        MarketAnalyzer.MarketSignals.should_trade = some true ∧
    ¬ ((11:ℚ)/5 ≤ 1) := by
  refine ⟨?_, ?_, by norm_num⟩ <;>
    (simp [MarketAnalyzer.analyze_market, MarketAnalyzer.mkMarketSignals,
      MarketAnalyzer.getFloat, MarketAnalyzer.getField, MarketAnalyzer.PyVal.toFloat,
      MarketAnalyzer.PyVal.truthy, MarketAnalyzer.requiredFields, List.find?]
     norm_num [abs_of_pos])

/-- Claim C7: whenever the rolling average loss over the RSI window is
zero while the average gain is positive (plus enough data for the
window), `calculate_rsi` returns exactly 100: `rs` becomes `+inf`,
`100/(1+rs)` becomes 0, and no division-by-zero fault or nan is
produced. -/
theorem c7_rsi_saturates (prices : List ℚ) (period : Nat)
    (hper : 0 < period) (hlen : period ≤ prices.length)
    (hloss : ((List.range period).map
      (fun j => TradingBot.lossAt prices (prices.length - 1 - j))).sum = 0)
    (hgain : 0 < ((List.range period).map
      (fun j => TradingBot.gainAt prices (prices.length - 1 - j))).sum) :
    TradingBot.calculate_rsi prices period = PFloat.val 100 := by
  have hne : ¬ prices.isEmpty = true := by
    intro hE
    have : prices = [] := List.isEmpty_iff.mp hE
    subst this
    simp at hlen
    omega
  unfold TradingBot.calculate_rsi
  rw [if_neg hne]
  unfold TradingBot.rsiAt TradingBot.rollingMean
  have hw : ¬ (prices.length - 1 + 1 < period) := by omega
  rw [if_neg hw, if_neg hw]
  dsimp only
  rw [hloss]
  have hgpos : 0 < ((List.range period).map
      (fun j => TradingBot.gainAt prices (prices.length - 1 - j))).sum / (period : ℚ) := by
    apply div_pos hgain
    exact_mod_cast hper
  have hdiv : PFloat.div
      (PFloat.val (((List.range period).map
        (fun j => TradingBot.gainAt prices (prices.length - 1 - j))).sum / (period : ℚ)))
      (PFloat.val ((0 : ℚ) / (period : ℚ))) = PFloat.inf := by
    unfold PFloat.div
    rw [zero_div]
    simp [hgpos]
  rw [hdiv]
  show PFloat.sub (PFloat.val 100) (PFloat.div (PFloat.val 100)
    (PFloat.add (PFloat.val 1) PFloat.inf)) = PFloat.val 100
  unfold PFloat.add PFloat.div PFloat.sub PFloat.neg PFloat.add
  norm_num

/-- Witness for C7: a monotonically rising 15-price series with the
default period 14. -/
theorem c7_rsi_saturates_witness :
    TradingBot.calculate_rsi [1, 2, 3, 4, 5, 6, 7, 8, 9, 10, 11, 12, 13, 14, 15] 14 =
      PFloat.val 100 :=
  c7_rsi_saturates [1, 2, 3, 4, 5, 6, 7, 8, 9, 10, 11, 12, 13, 14, 15] 14
    (by norm_num)
    (by norm_num)
    (by norm_num [TradingBot.lossAt, TradingBot.deltaAt, List.range_succ])
    (by norm_num [TradingBot.gainAt, TradingBot.deltaAt, List.range_succ])

/-- Folding `min` over a constant list yields the constant. -/
theorem foldl_min_const (v : ℚ) :
    ∀ (xs : List ℚ) (x : ℚ), x = v → (∀ y ∈ xs, y = v) → xs.foldl min x = v := by
  intro xs
  induction xs with
  | nil => intro x hx _; simpa using hx
  | cons y t ih =>
    intro x hx hall
    have hy : y = v := hall y (by simp)
    simp only [List.foldl_cons]
    exact ih (min x y) (by rw [hx, hy, min_self]) (fun z hz => hall z (by simp [hz]))

/-- Folding `max` over a constant list yields the constant. -/
theorem foldl_max_const (v : ℚ) :
    ∀ (xs : List ℚ) (x : ℚ), x = v → (∀ y ∈ xs, y = v) → xs.foldl max x = v := by
  intro xs
  induction xs with
  | nil => intro x hx _; simpa using hx
  | cons y t ih =>
    intro x hx hall
    have hy : y = v := hall y (by simp)
    simp only [List.foldl_cons]
    exact ih (max x y) (by rw [hx, hy, max_self]) (fun z hz => hall z (by simp [hz]))

/-- `min?` of a non-empty constant list. -/
theorem min?_const (v : ℚ) (xs : List ℚ) (hne : xs ≠ [])
    (hall : ∀ y ∈ xs, y = v) : xs.min? = some v := by
  cases xs with
  | nil => exact absurd rfl hne
  | cons a t =>
    rw [List.min?_cons']
    exact congrArg some
      (foldl_min_const v t a (hall a (by simp)) (fun y hy => hall y (by simp [hy])))

/-- `max?` of a non-empty constant list. -/
theorem max?_const (v : ℚ) (xs : List ℚ) (hne : xs ≠ [])
    (hall : ∀ y ∈ xs, y = v) : xs.max? = some v := by
  cases xs with
  | nil => exact absurd rfl hne
  | cons a t =>
    rw [List.max?_cons']
    exact congrArg some
      (foldl_max_const v t a (hall a (by simp)) (fun y hy => hall y (by simp [hy])))

/-- On a constant (flat-market) frame every `rsv` entry is nan: the
incomplete-window entries are nan by definition, and the complete ones
compute `0/0`. -/
theorem TradingBot.rsvAt_flat (v : ℚ) (df : List TradingBot.Candle) (n : Nat)
    (hn : 0 < n) (hflat : ∀ c ∈ df, c = ⟨v, v, v⟩) (i : Nat) (hi : i < df.length) :
    TradingBot.rsvAt df n i = PFloat.nan := by
  unfold TradingBot.rsvAt
  by_cases hw : i + 1 < n
  · simp [hw]
  · rw [if_neg hw]
    dsimp only
    have hmemlow : ∀ y ∈ TradingBot.windowVals TradingBot.Candle.low df n i, y = v := by
      intro y hy
      unfold TradingBot.windowVals at hy
      rcases List.mem_map.mp (List.mem_of_mem_drop (List.mem_of_mem_take hy)) with
        ⟨c, hc, rfl⟩
      rw [hflat c hc]
    have hmemhigh : ∀ y ∈ TradingBot.windowVals TradingBot.Candle.high df n i, y = v := by
      intro y hy
      unfold TradingBot.windowVals at hy
      rcases List.mem_map.mp (List.mem_of_mem_drop (List.mem_of_mem_take hy)) with
        ⟨c, hc, rfl⟩
      rw [hflat c hc]
    have hlenlow : TradingBot.windowVals TradingBot.Candle.low df n i ≠ [] := by
      have : 0 < (TradingBot.windowVals TradingBot.Candle.low df n i).length := by
        unfold TradingBot.windowVals
        rw [List.length_take, List.length_drop, List.length_map]
        omega
      intro hcon
      rw [hcon] at this
      simp at this
    have hlenhigh : TradingBot.windowVals TradingBot.Candle.high df n i ≠ [] := by
      have : 0 < (TradingBot.windowVals TradingBot.Candle.high df n i).length := by
        unfold TradingBot.windowVals
        rw [List.length_take, List.length_drop, List.length_map]
        omega
      intro hcon
      rw [hcon] at this
      simp at this
    have hc : (df.getD i ⟨0, 0, 0⟩).close = v := by
      rw [List.getD_eq_getElem df ⟨0, 0, 0⟩ hi]
      rw [hflat (df[i]) (List.getElem_mem hi)]
    rw [min?_const v _ hlenlow hmemlow, max?_const v _ hlenhigh hmemhigh]
    simp only [Option.getD_some]
    rw [hc]
    simp [PFloat.sub, PFloat.neg, PFloat.add, PFloat.div, PFloat.mul]

/-- The exponentially-weighted mean of an all-nan series (with zero
accumulated weight) is all nan. -/
theorem TradingBot.ewmMeanAux_nan (a : ℚ) :
    ∀ (xs : List PFloat) (num : PFloat), (∀ x ∈ xs, x = PFloat.nan) →
      ∀ y ∈ TradingBot.ewmMeanAux a num 0 xs, y = PFloat.nan := by
  intro xs
  induction xs with
  | nil =>
    intro num _ y hy
    simp [TradingBot.ewmMeanAux] at hy
  | cons x t ih =>
    intro num hall y hy
    have hx : x = PFloat.nan := hall x (by simp)
    subst hx
    unfold TradingBot.ewmMeanAux at hy
    simp only [zero_mul, if_pos] at hy
    rcases List.mem_cons.mp hy with hy | hy
    · simpa using hy
    · exact ih (num.mul (PFloat.val a)) (fun z hz => hall z (by simp [hz])) y hy

/-- `ewmMean` of an all-nan series is all nan. -/
theorem TradingBot.ewmMean_nan (a : ℚ) (xs : List PFloat)
    (h : ∀ x ∈ xs, x = PFloat.nan) :
    ∀ y ∈ TradingBot.ewmMean a xs, y = PFloat.nan :=
  TradingBot.ewmMeanAux_nan a xs (PFloat.val 0) h

/-- `getLastD` of an all-nan series with nan default. -/
theorem getLastD_nan (l : List PFloat) (d : PFloat) (hd : d = PFloat.nan)
    (h : ∀ y ∈ l, y = PFloat.nan) : l.getLastD d = PFloat.nan := by
  induction l generalizing d with
  | nil => exact hd
  | cons x t ih =>
    rw [List.getLastD_cons]
    exact ih x (h x (by simp)) (fun y hy => h y (by simp [hy]))

/-- On any non-empty constant (flat) frame the KDJ computation
produces nan for K, D and J, without raising. -/
theorem TradingBot.kdj_flat_nan (v : ℚ) (df : List TradingBot.Candle) (hne : df ≠ [])
    (hflat : ∀ c ∈ df, c = ⟨v, v, v⟩) :
    TradingBot.calculate_kdj df 9 3 3 = (PFloat.nan, PFloat.nan, PFloat.nan) := by
  unfold TradingBot.calculate_kdj
  rw [if_neg (by simpa [List.isEmpty_iff] using hne)]
  dsimp only
  have hrsv : ∀ y ∈ (List.range df.length).map (TradingBot.rsvAt df 9), y = PFloat.nan := by
    intro y hy
    rcases List.mem_map.mp hy with ⟨i, hi, rfl⟩
    exact TradingBot.rsvAt_flat v df 9 (by norm_num) hflat i (List.mem_range.mp hi)
  have hk := TradingBot.ewmMean_nan ((3 - 1) / 3)
    ((List.range df.length).map (TradingBot.rsvAt df 9)) hrsv
  have hd := TradingBot.ewmMean_nan ((3 - 1) / 3)
    (TradingBot.ewmMean ((3 - 1) / 3) ((List.range df.length).map (TradingBot.rsvAt df 9))) hk
  rw [getLastD_nan _ _ rfl hk, getLastD_nan _ _ rfl hd]
  rfl

/-- Claim C6 counterexample: on the 20-candle flat market of the spec
scenario, the KDJ computation yields K = nan — RSV is never given the
neutral value 50 and the resulting K, D, J are not well-defined
numbers. -/
theorem c6_counterexample :
    (TradingBot.calculate_kdj (List.replicate 20 ⟨5, 5, 5⟩) 9 3 3).1 = PFloat.nan ∧
    (TradingBot.calculate_kdj (List.replicate 20 ⟨5, 5, 5⟩) 9 3 3).1 ≠ PFloat.val 50 := by
  have h := TradingBot.kdj_flat_nan 5 (List.replicate 20 ⟨5, 5, 5⟩)
    (by decide) (by decide)
  constructor
  · rw [h]
  · rw [h]
    decide

/-- Claim C6 (amended): for every non-empty flat candle series
(high = low = close constant) the KDJ computation raises no error but
produces nan for RSV, K, D and J; the neutral triple (50, 50, 50)
comes only from the exception handler, which a flat market does not
trigger. -/
theorem c6_flat_kdj (v : ℚ) (df : List TradingBot.Candle) (hne : df ≠ [])
    (hflat : ∀ c ∈ df, c = ⟨v, v, v⟩) :
    TradingBot.calculate_kdj df 9 3 3 = (PFloat.nan, PFloat.nan, PFloat.nan) :=
  TradingBot.kdj_flat_nan v df hne hflat

/-- Witness for the amended C6 theorem on the spec scenario frame. -/
theorem c6_flat_kdj_witness :
    TradingBot.calculate_kdj (List.replicate 20 ⟨5, 5, 5⟩) 9 3 3 =
      (PFloat.nan, PFloat.nan, PFloat.nan) :=
  c6_flat_kdj 5 (List.replicate 20 ⟨5, 5, 5⟩) (by decide) (by decide)

/-- Setting a key on a dict never empties it. -/
theorem TradingBot.dictSet_ne_nil (l : List (String × String)) (k v : String) :
    TradingBot.dictSet l k v ≠ [] := by
  cases l with
  | nil => simp [TradingBot.dictSet]
  | cons p t =>
    rcases p with ⟨a, b⟩
    unfold TradingBot.dictSet
    by_cases h : a = k <;> simp [h]

/-- A member of `dictSet l k v` is the new pair or an original entry. -/
theorem TradingBot.mem_dictSet (l : List (String × String)) (k v : String)
    (y : String × String) (hy : y ∈ TradingBot.dictSet l k v) : y = (k, v) ∨ y ∈ l := by
  induction l with
  | nil => simpa [TradingBot.dictSet] using hy
  | cons p t ih =>
    rcases p with ⟨a, b⟩
    unfold TradingBot.dictSet at hy
    by_cases h : a = k
    · rw [if_pos h] at hy
      rcases List.mem_cons.mp hy with h1 | h1
      · exact Or.inl h1
      · exact Or.inr (List.mem_cons_of_mem _ h1)
    · rw [if_neg h] at hy
      rcases List.mem_cons.mp hy with h1 | h1
      · exact Or.inr (by simp [h1])
      · rcases ih h1 with h2 | h2
        · exact Or.inl h2
        · exact Or.inr (by simp [h2])

/-- `dictSet` preserves key distinctness. -/
theorem TradingBot.dictSet_pairwise (l : List (String × String)) (k v : String)
    (h : l.Pairwise (fun a b => a.1 ≠ b.1)) :
    (TradingBot.dictSet l k v).Pairwise (fun a b => a.1 ≠ b.1) := by
  induction l with
  | nil => simp [TradingBot.dictSet]
  | cons p t ih =>
    rcases p with ⟨a, b⟩
    rcases List.pairwise_cons.mp h with ⟨hhead, htail⟩
    unfold TradingBot.dictSet
    by_cases hak : a = k
    · rw [if_pos hak]
      refine List.pairwise_cons.mpr ⟨?_, htail⟩
      intro y hy
      have := hhead y hy
      simpa [← hak] using this
    · rw [if_neg hak]
      refine List.pairwise_cons.mpr ⟨?_, ih htail⟩
      intro y hy
      rcases TradingBot.mem_dictSet t k v y hy with h1 | h1
      · rw [h1]
        exact hak
      · exact hhead y h1

/-- On a dict with distinct keys, `dictSet` is the same multiset as
removing the key and appending the new pair. -/
theorem TradingBot.dictSet_perm (l : List (String × String)) (k v : String)
    (h : l.Pairwise (fun a b => a.1 ≠ b.1)) :
    List.Perm (TradingBot.dictSet l k v)
      (l.filter (fun p => p.1 != k) ++ [(k, v)]) := by
  induction l with
  | nil => simp [TradingBot.dictSet]
  | cons p t ih =>
    rcases p with ⟨a, b⟩
    rcases List.pairwise_cons.mp h with ⟨hhead, htail⟩
    unfold TradingBot.dictSet
    by_cases hak : a = k
    · rw [if_pos hak]
      subst hak
      have hfil : t.filter (fun p => p.1 != a) = t := by
        rw [List.filter_eq_self]
        intro p hp
        simpa using (hhead p hp).symm
      rw [List.filter_cons_of_neg (by simp), hfil]
      exact (List.perm_append_singleton (a, v) t).symm
    · rw [if_neg hak]
      rw [List.filter_cons_of_pos (by simpa using hak), List.cons_append]
      exact (ih htail).cons (a, b)

/-- Two permuted parameter lists with distinct keys have the same
key-sorted form. -/
theorem TradingBot.sortParams_eq_of_perm (l1 l2 : List (String × String))
    (hp : List.Perm l1 l2) (hnd : l1.Pairwise (fun a b => a.1 ≠ b.1)) :
    l1.insertionSort TradingBot.keyLE = l2.insertionSort TradingBot.keyLE := by
  have hs1 := List.sorted_insertionSort TradingBot.keyLE l1
  have hs2 := List.sorted_insertionSort TradingBot.keyLE l2
  have hperm1 := List.perm_insertionSort TradingBot.keyLE l1
  have hperm2 := List.perm_insertionSort TradingBot.keyLE l2
  have hnd1 : (l1.insertionSort TradingBot.keyLE).Pairwise (fun a b => a.1 ≠ b.1) :=
    (hperm1.pairwise_iff (fun h => Ne.symm h)).mpr hnd
  have hnd2 : (l2.insertionSort TradingBot.keyLE).Pairwise (fun a b => a.1 ≠ b.1) :=
    (hperm2.pairwise_iff (fun h => Ne.symm h)).mpr
      ((hp.pairwise_iff (fun h => Ne.symm h)).mp hnd)
  have hlt1 : List.Sorted TradingBot.keyLT (l1.insertionSort TradingBot.keyLE) :=
    (hs1.and hnd1).imp (fun hab => lt_of_le_of_ne hab.1 hab.2)
  have hlt2 : List.Sorted TradingBot.keyLT (l2.insertionSort TradingBot.keyLE) :=
    (hs2.and hnd2).imp (fun hab => lt_of_le_of_ne hab.1 hab.2)
  exact List.eq_of_perm_of_sorted (hperm1.trans (hp.trans hperm2.symm)) hlt1 hlt2

/-- Python ampersand-join of a list headed by a non-empty string is
non-empty. -/
theorem TradingBot.joinAmp_cons_ne_empty (xs : List String) (x : String)
    (hx : 0 < x.length) : TradingBot.joinAmp (x :: xs) ≠ "" := by
  cases xs with
  | nil =>
    intro hcon
    unfold TradingBot.joinAmp at hcon
    rw [hcon] at hx
    simp at hx
  | cons y t =>
    intro hcon
    unfold TradingBot.joinAmp at hcon
    have := congrArg String.length hcon
    simp [String.length_append] at this
    omega

/-- The sorted parameter string of a non-empty dict is non-empty. -/
theorem TradingBot.paramStr_ne_empty (l : List (String × String)) (hne : l ≠ []) :
    TradingBot.paramStr l ≠ "" := by
  unfold TradingBot.paramStr
  rcases hsort : (l.insertionSort TradingBot.keyLE).map
      (fun p => p.1 ++ "=" ++ p.2) with _ | ⟨x, xs⟩
  · exfalso
    have h1 : (l.insertionSort TradingBot.keyLE).length = 0 := by
      have := congrArg List.length hsort
      simpa using this
    rw [List.length_insertionSort] at h1
    exact hne (List.length_eq_zero.mp h1)
  · have hxmem : x ∈ (l.insertionSort TradingBot.keyLE).map
        (fun p => p.1 ++ "=" ++ p.2) := by
      rw [hsort]
      simp
    rcases List.mem_map.mp hxmem with ⟨p, _, hpx⟩
    have hxlen : 0 < x.length := by
      rw [← hpx]
      simp [String.length_append]
      exact Or.inl (Or.inr (by decide))
    rw [hsort]
    exact TradingBot.joinAmp_cons_ne_empty xs x hxlen

/-- The signing string built by `generate_signature` equals the
canonical signing string of the spec, for any dict with distinct
keys. -/
theorem TradingBot.signString_eq_canonical (params : List (String × String))
    (method endpoint timestamp : String)
    (hnd : params.Pairwise (fun a b => a.1 ≠ b.1)) :
    TradingBot.signString params method endpoint timestamp =
      TradingBot.canonicalSigningString method endpoint params timestamp := by
  unfold TradingBot.signString TradingBot.canonicalSigningString
  dsimp only
  rw [if_pos (TradingBot.paramStr_ne_empty _
    (TradingBot.dictSet_ne_nil params "timestamp" timestamp))]
  unfold TradingBot.paramStr
  rw [TradingBot.sortParams_eq_of_perm _ _
    (TradingBot.dictSet_perm params "timestamp" timestamp hnd)
    (TradingBot.dictSet_pairwise params "timestamp" timestamp hnd)]

/-- Claim C2 counterexample: changing the method from get to GET is a
change of one input, yet the signature (and the timestamp echo) is
identical, because the canonical string upper-cases the method — so
the signature does not change whenever any single input changes. -/
theorem c2_counterexample :
    TradingBot.generate_signature "secret" [("symbol", "BTC_USDT")]
        "get" "/api/v1/order" "1700000000000" =
      TradingBot.generate_signature "secret" [("symbol", "BTC_USDT")]
        "GET" "/api/v1/order" "1700000000000" ∧
    ("get" : String) ≠ "GET" := by
  constructor
  · unfold TradingBot.generate_signature TradingBot.signString
    rw [show TradingBot.pyUpper "get" = TradingBot.pyUpper "GET" from by decide]
  · decide

/-- Claim C2 (amended): for every dict of parameters with distinct
keys, the produced signature is exactly the hex HMAC-SHA256, keyed by
the secret, of the spec canonical signing string
`UPPERCASE(method) + path + "?" + sorted key=value pairs of
(params ∪ timestamp)`, together with the echoed timestamp; the
signature is a function of these inputs (deterministic), and inputs
affect it only through the canonical string — in particular a
case-change of the method leaves it unchanged. -/
theorem c2_signature_canonical (api_secret : String)
    (params : List (String × String)) (method endpoint timestamp : String)
    (hnd : params.Pairwise (fun a b => a.1 ≠ b.1)) :
    TradingBot.generate_signature api_secret params method endpoint timestamp =
      (SHA256.hmacSha256Hex api_secret
        (TradingBot.canonicalSigningString method endpoint params timestamp),
       timestamp) := by
  unfold TradingBot.generate_signature
  rw [TradingBot.signString_eq_canonical params method endpoint timestamp hnd]

/-- Witness for the amended C2 theorem at a concrete request. -/
theorem c2_signature_canonical_witness :
    TradingBot.generate_signature "secret" [("symbol", "BTC_USDT"), ("side", "BUY")]
        "POST" "/api/v1/order" "1700000000000" =
      (SHA256.hmacSha256Hex "secret"
        (TradingBot.canonicalSigningString "POST" "/api/v1/order"
          [("symbol", "BTC_USDT"), ("side", "BUY")] "1700000000000"),
       "1700000000000") :=
  c2_signature_canonical "secret" [("symbol", "BTC_USDT"), ("side", "BUY")]
    "POST" "/api/v1/order" "1700000000000" (by decide)
